import Mathlib

/-!
Verification of the Kubeflow trainer client core: step classification,
job status reconciliation, wait-for-status, and follow-mode log aggregation.
Definitions are a shallow embedding of `kubeflow/trainer/api/trainer_client.py`
and `kubeflow/trainer/constants/constants.py`.
-/

namespace KubeflowTrainer

namespace constants

def TRAINJOB_CREATED : String := "Created"

def TRAINJOB_RUNNING : String := "Running"

def TRAINJOB_COMPLETE : String := "Complete"

def TRAINJOB_FAILED : String := "Failed"

def DATASET_INITIALIZER : String := "dataset-initializer"

def MODEL_INITIALIZER : String := "model-initializer"

def LAUNCHER : String := "launcher"

def NODE : String := "node"

def UNKNOWN : String := "Unknown"

def POD_PENDING : String := "Pending"

end constants

/-- A condition reported on the TrainJob custom resource: a type
(such as Complete or Failed) and a string status ("True"/"False"). -/
structure Condition where
  type_ : String
  status : String
deriving DecidableEq, Repr

/-- One classified execution unit of the job, built from a Pod observation
(`types.Step` with the fields the client reads). -/
structure Step where
  name : String
  status : String
  pod_name : String
deriving DecidableEq, Repr

/-- A Pod observation as the client consumes it: metadata name, the
replicated-job role label, the job-completion-index label, and the phase. -/
structure Pod where
  name : String
  rjob_label : String
  job_index : Nat
  phase : String
deriving DecidableEq, Repr

/-- The reconciled TrainJob snapshot (`types.TrainJob` restricted to the
fields the core logic reads and writes). -/
structure TrainJob where
  name : String
  num_nodes : Nat
  steps : List Step
  status : String
deriving DecidableEq, Repr

/-- Modelled from the spec: the Pod-phase-to-step-status table of the Step
Classifier (`utils` helpers are not under src/): Pending maps to Pending,
Running to Running, Succeeded to Complete, Failed to Failed, anything else
to Unknown. -/
def mapPodPhase (phase : String) : String :=
  if phase = "Pending" then "Pending"
  else if phase = "Running" then "Running"
  else if phase = "Succeeded" then "Complete"
  else if phase = "Failed" then "Failed"
  else constants.UNKNOWN

/-- Modelled from the spec: `utils.get_trainjob_initializer_step` is not
under src/. Per the spec, an initializer Pod classifies as a Step whose
name equals the role label with no index, with the Pod phase mapped to the
step status. -/
def get_trainjob_initializer_step (podName : String) (role : String)
    (phase : String) : Step :=
  { name := role, status := mapPodPhase phase, pod_name := podName }

/-- Modelled from the spec: `utils.get_trainjob_node_step` is not under
src/. Per the spec, a launcher/node Pod classifies as a compute Step whose
name is the role followed by a dash and the replica index. -/
def get_trainjob_node_step (podName : String) (phase : String)
    (role : String) (idx : Nat) : Step :=
  { name := role ++ "-" ++ toString idx
    status := mapPodPhase phase
    pod_name := podName }

/-- The per-Pod classification dispatch of `__get_trainjob_from_crd`:
initializer roles build an initializer step, launcher/node roles build a
node step with the index label; other labels contribute no step. -/
def classifyPod (p : Pod) : Option Step :=
  if p.rjob_label = constants.DATASET_INITIALIZER ∨
      p.rjob_label = constants.MODEL_INITIALIZER then
    some (get_trainjob_initializer_step p.name p.rjob_label p.phase)
  else if p.rjob_label = constants.LAUNCHER ∨ p.rjob_label = constants.NODE then
    some (get_trainjob_node_step p.name p.phase p.rjob_label p.job_index)
  else
    none

/-- One iteration of the condition loop in `__get_trainjob_from_crd`:
a true Complete or Failed condition overwrites the status, any other
condition leaves it unchanged. -/
def applyCondition (st : String) (c : Condition) : String :=
  if c.type_ = constants.TRAINJOB_COMPLETE ∧ c.status = "True" then c.type_
  else if c.type_ = constants.TRAINJOB_FAILED ∧ c.status = "True" then c.type_
  else st

/-- The count of steps whose name starts with the node role and whose
status is Running (the generator expression in `__get_trainjob_from_crd`;
the startswith test is embedded as a character-list test so it computes in
the kernel). -/
def numRunningNodes (steps : List Step) : Nat :=
  steps.countP fun s =>
    constants.NODE.data.isPrefixOf s.name.data &&
      s.status == constants.TRAINJOB_RUNNING

/-- The status computation at the end of `__get_trainjob_from_crd`: when the
resource carries a non-empty conditions list, fold the condition loop over it
starting from the default Created status; otherwise infer Running exactly
when the declared node count equals the count of running node steps. -/
def reconcileStatus (conditions : Option (List Condition)) (steps : List Step)
    (num_nodes : Nat) : String :=
  match conditions with
  | some (c :: cs) => (c :: cs).foldl applyCondition constants.TRAINJOB_CREATED
  | _ =>
    if num_nodes = numRunningNodes steps then constants.TRAINJOB_RUNNING
    else constants.TRAINJOB_CREATED

/-- `__get_trainjob_from_crd`: build the steps by classifying every Pod, then
compute the status from the resource conditions and the steps. The effective
node count (TrainJob spec or Runtime default) is taken as an input. -/
def get_trainjob_from_crd (name : String) (num_nodes : Nat) (pods : List Pod)
    (conditions : Option (List Condition)) : TrainJob :=
  let steps := pods.filterMap classifyPod
  { name := name
    num_nodes := num_nodes
    steps := steps
    status := reconcileStatus conditions steps num_nodes }

/-- A condition that overwrites the status in the condition loop: a true
Complete or a true Failed condition. -/
def isTerminalTrue (c : Condition) : Prop :=
  (c.type_ = constants.TRAINJOB_COMPLETE ∧ c.status = "True") ∨
    (c.type_ = constants.TRAINJOB_FAILED ∧ c.status = "True")

instance (c : Condition) : Decidable (isTerminalTrue c) := by
  unfold isTerminalTrue; infer_instance

/-- The type of the last true terminal condition of the list, if any:
the value the condition loop leaves in the status. -/
def lastTerminal : List Condition → Option String
  | [] => none
  | c :: cs =>
    match lastTerminal cs with
    | some t => some t
    | none => if isTerminalTrue c then some c.type_ else none

/-- The valid status set of `wait_for_job_status` (the `job_statuses`
local set in the code). -/
def job_statuses : List String :=
  [constants.TRAINJOB_CREATED, constants.TRAINJOB_RUNNING,
    constants.TRAINJOB_COMPLETE, constants.TRAINJOB_FAILED]

/-- The ways `wait_for_job_status` can fail: the ValueError on an invalid
target set, the RuntimeError when the job is Failed and Failed was not
requested, the RuntimeError wrapping a failure while watching or fetching,
and the TimeoutError when the watch stream ends without a match. -/
inductive WaitError where
  | invalidArgument
  | failedAbort
  | watchFailure
  | timeoutExpired
deriving DecidableEq, Repr

/-- One `get_job` fetch triggered by a watch event: either a snapshot or a
raised exception. -/
abbrev Fetch := Except Unit TrainJob

/-- A sequence of fetches that all succeed. -/
def pureSnaps (l : List TrainJob) : List Fetch := l.map Except.ok

/-- The event loop of `wait_for_job_status`: for each event, fetch the job;
a fetch exception propagates (as the wrapped RuntimeError), a Failed status
outside the target set aborts, a status in the target set returns the
snapshot, and an exhausted stream means the watch timed out. -/
def processEvents (target : List String) : List Fetch → Except WaitError TrainJob
  | [] => .error .timeoutExpired
  | .error _ :: _ => .error .watchFailure
  | .ok j :: rest =>
    if constants.TRAINJOB_FAILED ∉ target ∧ j.status = constants.TRAINJOB_FAILED then
      .error .failedAbort
    else if j.status ∈ target then .ok j
    else processEvents target rest

/-- The subset validation at the top of `wait_for_job_status`. -/
def validTarget (target : List String) : Bool :=
  target.all fun s => decide (s ∈ job_statuses)

/-- The `finally: w.stop()` wrapper: whatever outcome the try block has,
the watch is stopped before the outcome propagates. -/
def tryFinallyStop (r : Except WaitError TrainJob) :
    Except WaitError TrainJob × Bool :=
  (r, true)

/-- The observable outcome of one `wait_for_job_status` call: its result
plus whether the watch was opened and whether it was stopped. -/
structure WaitOutcome where
  result : Except WaitError TrainJob
  watch_opened : Bool
  watch_stopped : Bool

/-- `wait_for_job_status`: validate the target set before any cluster call;
then open the watch, run the event loop under the try/finally, and raise
the final TimeoutError if the stream ended without a match. -/
def wait_for_job_status (target : List String) (events : List Fetch) :
    WaitOutcome :=
  if validTarget target then
    let p := tryFinallyStop (processEvents target events)
    { result := p.1, watch_opened := true, watch_stopped := p.2 }
  else
    { result := .error .invalidArgument
      watch_opened := false
      watch_stopped := false }

/-- Modelled from the spec: one outcome of a `log_queue.get(timeout=1)` call
on the per-stream queue that `utils.get_log_queue_pool` (not under src/)
fills from the log stream: a produced line, the end-of-stream sentinel
(None), or a transient timeout (`queue.Empty`). -/
inductive PullResult where
  | line (s : String)
  | sentinel
  | empty
deriving DecidableEq, Repr

/-- The lines a queue yields before its first sentinel, in production
order. -/
def linesBefore : List PullResult → List String
  | [] => []
  | .line s :: r => s :: linesBefore r
  | .sentinel :: _ => []
  | .empty :: r => linesBefore r

/-- The inner batch loop of `get_job_logs` follow mode (`for _ in range(50)`):
pull up to the batch bound from the queue schedule, collecting lines, break
on a transient empty pull, and break marking the source finished on the
sentinel. Returns the remaining schedule, the gathered lines in order, and
the finished flag. -/
def pullBatch : Nat → List PullResult → List PullResult × List String × Bool
  | 0, sched => (sched, [], false)
  | _ + 1, [] => ([], [], false)
  | n + 1, .line s :: rest =>
    let p := pullBatch n rest
    (p.1, s :: p.2.1, p.2.2)
  | _ + 1, .sentinel :: rest => (rest, [], true)
  | _ + 1, .empty :: rest => (rest, [], false)

/-- One log source of the follow loop: its remaining queue schedule and its
entry in the `finished` array. -/
structure SrcState where
  sched : List PullResult
  finished : Bool
deriving DecidableEq, Repr

/-- `all(finished)` over the pool. -/
def allFinished (pool : List SrcState) : Bool := pool.all (·.finished)

/-- One pass of the `for index, log_queue in enumerate(log_queue_pool)`
loop: sources already visited in this pass are in `done`; before each
source the loop breaks if every source is finished, skips finished sources,
and otherwise runs one batch pull. Returns the updated pool and the lines
gathered during the pass, in emission order. -/
def scanPool (done : List SrcState) :
    List SrcState → List SrcState × List String
  | [] => (done, [])
  | s :: rest =>
    if allFinished (done ++ s :: rest) then (done ++ s :: rest, [])
    else if s.finished then scanPool (done ++ [s]) rest
    else
      let b := pullBatch 50 s.sched
      let r := scanPool (done ++ [⟨b.1, b.2.2⟩]) rest
      (r.1, b.2.1 ++ r.2)

/-- The `while True` follow loop of `get_job_logs`, with explicit fuel:
run one pass over the pool, return the accumulated lines once every source
is finished, and otherwise loop. `none` means the fuel ran out before the
loop returned. -/
def followLoop : Nat → List SrcState → List String →
    Option (List SrcState × List String)
  | 0, _, _ => none
  | fuel + 1, pool, acc =>
    let p := scanPool [] pool
    if allFinished p.1 then some (p.1, acc ++ p.2)
    else followLoop fuel p.1 (acc ++ p.2)

/-- The transcript `get_job_logs` accumulates for a source: every emitted
line followed by a newline. -/
def transcriptOf (lines : List String) : String :=
  String.join (lines.map fun l => l ++ "\n")

/-- The dictionary key `"{step}-{node_rank}"`. -/
def stepKey (step : String) (node_rank : Nat) : String :=
  step ++ "-" ++ toString node_rank

/-- The Pod selection loop at the top of `get_job_logs`: scan the job's
steps and remember the pod name of every step that is not Pending and whose
name matches the requested step or `"{step}-{node_rank}"`; the last match
wins. -/
def selectFold (step : String) (node_rank : Nat) (acc : Option String)
    (c : Step) : Option String :=
  if c.status ≠ constants.POD_PENDING ∧
      (c.name = step ∨ c.name = stepKey step node_rank) then
    some c.pod_name
  else acc

def selectPodName (steps : List Step) (step : String) (node_rank : Nat) :
    Option String :=
  steps.foldl (selectFold step node_rank) none

/-- The failure of `get_job_logs`: the RuntimeError wrapping a failed
synchronous log read. -/
inductive LogsError where
  | readFailure
deriving DecidableEq, Repr

/-- The observable outcome of one `get_job_logs` call: the returned mapping
or the raised error (`none` when the follow loop did not return within the
fuel), and whether any log read or log stream was opened. -/
structure LogsOutcome where
  result : Option (Except LogsError (List (String × String)))
  read_attempted : Bool

/-- `get_job_logs`: select the pod from the job's steps, returning an empty
mapping when no step matched; in follow mode for the node step run the
follow loop over the single opened stream; otherwise do one synchronous
read into the key for the requested step. -/
def get_job_logs (steps : List Step) (step : String) (node_rank : Nat)
    (follow : Bool) (sched : List PullResult) (fuel : Nat)
    (readResult : Except Unit String) : LogsOutcome :=
  match selectPodName steps step node_rank with
  | none => { result := some (.ok []), read_attempted := false }
  | some _ =>
    if follow = true ∧ step = constants.NODE then
      match followLoop fuel [⟨sched, false⟩] [] with
      | some p =>
        { result := some (.ok [(stepKey step node_rank, transcriptOf p.2)])
          read_attempted := true }
      | none => { result := none, read_attempted := true }
    else
      match readResult with
      | .ok text =>
        let key :=
          if step = constants.DATASET_INITIALIZER then
            constants.DATASET_INITIALIZER
          else if step = constants.MODEL_INITIALIZER then
            constants.MODEL_INITIALIZER
          else stepKey step node_rank
        { result := some (.ok [(key, text)]), read_attempted := true }
      | .error _ =>
        { result := some (.error .readFailure), read_attempted := true }

theorem foldl_applyCondition (cs : List Condition) :
    ∀ init : String, cs.foldl applyCondition init = (lastTerminal cs).getD init := by
  induction cs with
  | nil => intro init; rfl
  | cons c cs ih =>
    intro init
    show cs.foldl applyCondition (applyCondition init c) = _
    rw [ih]
    cases h : lastTerminal cs with
    | some t => simp [lastTerminal, h]
    | none =>
      simp only [lastTerminal, h]
      by_cases hc : isTerminalTrue c
      · rw [if_pos hc]
        rcases hc with ⟨h1, h2⟩ | ⟨h1, h2⟩ <;>
          simp [applyCondition, h1, h2, constants.TRAINJOB_COMPLETE,
            constants.TRAINJOB_FAILED]
      · rw [if_neg hc]
        unfold isTerminalTrue at hc
        push_neg at hc
        unfold applyCondition
        rw [if_neg (fun hx => hc.1 hx.1 hx.2), if_neg (fun hx => hc.2 hx.1 hx.2)]

theorem lastTerminal_cases {cs : List Condition} {t : String}
    (h : lastTerminal cs = some t) :
    t = constants.TRAINJOB_COMPLETE ∨ t = constants.TRAINJOB_FAILED := by
  induction cs with
  | nil => simp [lastTerminal] at h
  | cons c cs ih =>
    simp only [lastTerminal] at h
    cases hcs : lastTerminal cs with
    | some u => rw [hcs] at h; exact ih (hcs.trans (by injection h with h; rw [h]))
    | none =>
      rw [hcs] at h
      by_cases hc : isTerminalTrue c
      · rw [if_pos hc] at h
        injection h with h
        subst h
        rcases hc with ⟨h1, _⟩ | ⟨h1, _⟩
        · exact Or.inl h1
        · exact Or.inr h1
      · rw [if_neg hc] at h; exact absurd h (by simp)

theorem validTarget_iff (target : List String) :
    validTarget target = true ↔ ∀ s ∈ target, s ∈ job_statuses := by
  simp [validTarget, List.all_eq_true]

theorem processEvents_ne_invalid (target : List String) (events : List Fetch) :
    processEvents target events ≠ .error .invalidArgument := by
  induction events with
  | nil => simp [processEvents]
  | cons e rest ih =>
    cases e with
    | error u => simp [processEvents]
    | ok j =>
      simp only [processEvents]
      split
      · simp
      · split
        · simp
        · exact ih

theorem processEvents_ok_mem {target : List String} {l : List TrainJob}
    {j : TrainJob} :
    processEvents target (pureSnaps l) = .ok j → j ∈ l := by
  induction l with
  | nil => intro h; simp [pureSnaps, processEvents] at h
  | cons k rest ih =>
    intro h
    rw [show pureSnaps (k :: rest) = .ok k :: pureSnaps rest from rfl] at h
    simp only [processEvents] at h
    split at h
    · exact absurd h (by simp)
    · split at h
      · injection h with h
        rw [← h]
        exact List.mem_cons_self k rest
      · exact List.mem_cons_of_mem k (ih h)

theorem processEvents_timeout {target : List String} {l : List TrainJob}
    (h1 : ∀ j ∈ l, j.status ∉ target)
    (h2 : ∀ j ∈ l,
      j.status ≠ constants.TRAINJOB_FAILED ∨ constants.TRAINJOB_FAILED ∈ target) :
    processEvents target (pureSnaps l) = .error .timeoutExpired := by
  induction l with
  | nil => rfl
  | cons k rest ih =>
    have hk1 : ¬(constants.TRAINJOB_FAILED ∉ target ∧
        k.status = constants.TRAINJOB_FAILED) := by
      rintro ⟨ha, hb⟩
      rcases h2 k (List.mem_cons_self k rest) with h | h
      · exact h hb
      · exact ha h
    have hk2 : k.status ∉ target := h1 k (List.mem_cons_self k rest)
    show processEvents target (.ok k :: pureSnaps rest) = _
    simp only [processEvents]
    rw [if_neg hk1, if_neg hk2]
    exact ih (fun j hj => h1 j (List.mem_cons_of_mem k hj))
      (fun j hj => h2 j (List.mem_cons_of_mem k hj))

theorem processEvents_abort {target : List String} {pre post : List TrainJob}
    {j : TrainJob}
    (hnf : constants.TRAINJOB_FAILED ∉ target)
    (hj : j.status = constants.TRAINJOB_FAILED)
    (hpre : ∀ k ∈ pre, k.status ∉ target) :
    processEvents target (pureSnaps (pre ++ j :: post)) = .error .failedAbort := by
  induction pre with
  | nil =>
    show processEvents target (.ok j :: pureSnaps post) = _
    simp only [processEvents]
    rw [if_pos ⟨hnf, hj⟩]
  | cons k rest ih =>
    show processEvents target (.ok k :: pureSnaps (rest ++ j :: post)) = _
    simp only [processEvents]
    by_cases hk : constants.TRAINJOB_FAILED ∉ target ∧
        k.status = constants.TRAINJOB_FAILED
    · rw [if_pos hk]
    · rw [if_neg hk, if_neg (hpre k (List.mem_cons_self k rest))]
      exact ih fun m hm => hpre m (List.mem_cons_of_mem k hm)

theorem pullBatch_end {n : Nat} {sched : List PullResult} :
    ((pullBatch n sched).2.2 = true → linesBefore sched = (pullBatch n sched).2.1) ∧
      ((pullBatch n sched).2.2 = false →
        linesBefore sched = (pullBatch n sched).2.1 ++ linesBefore (pullBatch n sched).1) := by
  induction n generalizing sched with
  | zero => exact ⟨fun h => by simp [pullBatch] at h, fun _ => rfl⟩
  | succ m ih =>
    cases sched with
    | nil => exact ⟨fun h => by simp [pullBatch] at h, fun _ => rfl⟩
    | cons x rest =>
      cases x with
      | line s =>
        refine ⟨fun h => ?_, fun h => ?_⟩
        · have := (@ih rest).1 h
          simp only [pullBatch, linesBefore]
          rw [this]
        · have := (@ih rest).2 h
          simp only [pullBatch, linesBefore]
          rw [this]
          rfl
      | sentinel => exact ⟨fun _ => rfl, fun h => by simp [pullBatch] at h⟩
      | empty => exact ⟨fun h => by simp [pullBatch] at h, fun _ => rfl⟩

theorem pullBatch_sentinel {n : Nat} {sched : List PullResult}
    (hf : (pullBatch n sched).2.2 = false) (hs : PullResult.sentinel ∈ sched) :
    PullResult.sentinel ∈ (pullBatch n sched).1 := by
  induction n generalizing sched with
  | zero => exact hs
  | succ m ih =>
    cases sched with
    | nil => simp at hs
    | cons x rest =>
      cases x with
      | line s =>
        have hf2 : (pullBatch m rest).2.2 = false := hf
        have hs2 : PullResult.sentinel ∈ rest := by
          rcases List.mem_cons.mp hs with h | h
          · exact absurd h (by simp)
          · exact h
        exact ih hf2 hs2
      | sentinel => simp [pullBatch] at hf
      | empty =>
        rcases List.mem_cons.mp hs with h | h
        · exact absurd h (by simp)
        · exact h

theorem pullBatch_length_le {n : Nat} {sched : List PullResult} :
    (pullBatch n sched).1.length ≤ sched.length := by
  induction n generalizing sched with
  | zero => exact Nat.le_refl _
  | succ m ih =>
    cases sched with
    | nil => exact Nat.le_refl _
    | cons x rest =>
      cases x with
      | line s => exact Nat.le_trans (@ih rest) (Nat.le_succ _)
      | sentinel => exact Nat.le_succ _
      | empty => exact Nat.le_succ _

theorem pullBatch_length_lt {n : Nat} {x : PullResult} {rest : List PullResult} :
    (pullBatch (n + 1) (x :: rest)).1.length < (x :: rest).length := by
  cases x with
  | line s => exact Nat.lt_succ_of_le (@pullBatch_length_le n rest)
  | sentinel => exact Nat.lt_succ_of_le (Nat.le_refl _)
  | empty => exact Nat.lt_succ_of_le (Nat.le_refl _)

theorem scanPool_single_fst (sched : List PullResult) :
    (scanPool [] [⟨sched, false⟩]).1 =
      [⟨(pullBatch 50 sched).1, (pullBatch 50 sched).2.2⟩] := rfl

theorem scanPool_single_snd (sched : List PullResult) :
    (scanPool [] [⟨sched, false⟩]).2 = (pullBatch 50 sched).2.1 ++ [] := rfl

theorem followLoop_succ (fuel : Nat) (pool : List SrcState) (acc : List String) :
    followLoop (fuel + 1) pool acc =
      if allFinished (scanPool [] pool).1 then
        some ((scanPool [] pool).1, acc ++ (scanPool [] pool).2)
      else followLoop fuel (scanPool [] pool).1 (acc ++ (scanPool [] pool).2) := rfl

theorem followLoop_single : ∀ (n : Nat) (sched : List PullResult)
    (acc : List String), PullResult.sentinel ∈ sched → sched.length ≤ n →
    ∃ r, followLoop (n + 1) [⟨sched, false⟩] acc =
      some ([⟨r, true⟩], acc ++ linesBefore sched) := by
  intro n
  induction n with
  | zero =>
    intro sched acc hs hl
    rw [Nat.le_zero, List.length_eq_zero] at hl
    subst hl
    simp at hs
  | succ m ih =>
    intro sched acc hs hl
    rw [followLoop_succ, scanPool_single_fst, scanPool_single_snd]
    cases hb : (pullBatch 50 sched).2.2 with
    | true =>
      refine ⟨(pullBatch 50 sched).1, ?_⟩
      rw [if_pos (by simp [allFinished])]
      rw [List.append_nil, (@pullBatch_end 50 sched).1 hb]
    | false =>
      rw [if_neg (by simp [allFinished])]
      have hs2 : PullResult.sentinel ∈ (pullBatch 50 sched).1 :=
        pullBatch_sentinel hb hs
      have hne : sched ≠ [] := by rintro rfl; simp at hs
      have hlt : (pullBatch 50 sched).1.length < sched.length := by
        cases sched with
        | nil => exact absurd rfl hne
        | cons x rest => exact pullBatch_length_lt
      have hle : (pullBatch 50 sched).1.length ≤ m :=
        Nat.le_of_lt_succ (Nat.lt_of_lt_of_le hlt hl)
      obtain ⟨r, hr⟩ := ih (pullBatch 50 sched).1
        (acc ++ ((pullBatch 50 sched).2.1 ++ [])) hs2 hle
      refine ⟨r, ?_⟩
      rw [hr, (@pullBatch_end 50 sched).2 hb]
      simp

theorem followLoop_allFinished : ∀ (fuel : Nat) (pool : List SrcState)
    (acc out : List String) (p : List SrcState),
    followLoop fuel pool acc = some (p, out) → allFinished p = true := by
  intro fuel
  induction fuel with
  | zero => intro pool acc out p h; exact absurd h (by simp [followLoop])
  | succ m ih =>
    intro pool acc out p h
    simp only [followLoop] at h
    split at h
    · injection h with h
      injection h with h1 h2
      rw [← h1]
      assumption
    · exact ih _ _ _ _ h

theorem get_trainjob_status (name : String) (num_nodes : Nat) (pods : List Pod)
    (conditions : Option (List Condition)) :
    (get_trainjob_from_crd name num_nodes pods conditions).status =
      reconcileStatus conditions (pods.filterMap classifyPod) num_nodes := rfl

theorem reconcile_some_cons (c : Condition) (cs : List Condition)
    (steps : List Step) (n : Nat) :
    reconcileStatus (some (c :: cs)) steps n =
      (lastTerminal (c :: cs)).getD constants.TRAINJOB_CREATED := by
  show (c :: cs).foldl applyCondition constants.TRAINJOB_CREATED = _
  exact foldl_applyCondition (c :: cs) constants.TRAINJOB_CREATED

/-- Claim C1, counterexample: a TrainJob whose conditions report Complete=true
followed by Failed=true is reconciled to Failed, not Complete — the condition
loop lets the later true terminal condition win. -/
theorem c1_counterexample :
    (⟨constants.TRAINJOB_COMPLETE, "True"⟩ : Condition) ∈
        [(⟨constants.TRAINJOB_COMPLETE, "True"⟩ : Condition),
          ⟨constants.TRAINJOB_FAILED, "True"⟩] ∧
      (get_trainjob_from_crd "job-abc" 1 []
          (some [⟨constants.TRAINJOB_COMPLETE, "True"⟩,
            ⟨constants.TRAINJOB_FAILED, "True"⟩])).status =
        constants.TRAINJOB_FAILED ∧
      (get_trainjob_from_crd "job-abc" 1 []
          (some [⟨constants.TRAINJOB_COMPLETE, "True"⟩,
            ⟨constants.TRAINJOB_FAILED, "True"⟩])).status ≠
        constants.TRAINJOB_COMPLETE := by
  refine ⟨by decide, by decide, by decide⟩

/-- Claim C1, amended: if the last true terminal condition in the resource's
condition list is Complete (in particular whenever Complete=true is reported
and no Failed=true condition follows it), the reconciled status is Complete,
regardless of every Pod's phase. -/
theorem c1_claim (name : String) (n : Nat) (pods : List Pod)
    (conds : List Condition)
    (h : lastTerminal conds = some constants.TRAINJOB_COMPLETE) :
    (get_trainjob_from_crd name n pods (some conds)).status =
      constants.TRAINJOB_COMPLETE := by
  cases conds with
  | nil => exact absurd h (by simp [lastTerminal])
  | cons c cs =>
    rw [get_trainjob_status, reconcile_some_cons, h]
    rfl

/-- Claim C1, witness: a job whose single condition is Complete=true is
Complete even though its only node Pod reports phase Failed. -/
theorem c1_witness :
    (get_trainjob_from_crd "job-abc" 1 [⟨"pod-0", "node", 0, "Failed"⟩]
        (some [⟨constants.TRAINJOB_COMPLETE, "True"⟩])).status =
      constants.TRAINJOB_COMPLETE :=
  c1_claim "job-abc" 1 [⟨"pod-0", "node", 0, "Failed"⟩]
    [⟨constants.TRAINJOB_COMPLETE, "True"⟩] (by decide)

/-- Claim C2, counterexample: a TrainJob whose conditions report Failed=true
followed by Complete=true is reconciled to Complete, not Failed, so the first
half of the claim fails as stated. -/
theorem c2_counterexample :
    (⟨constants.TRAINJOB_FAILED, "True"⟩ : Condition) ∈
        [(⟨constants.TRAINJOB_FAILED, "True"⟩ : Condition),
          ⟨constants.TRAINJOB_COMPLETE, "True"⟩] ∧
      (get_trainjob_from_crd "job-abc" 1 []
          (some [⟨constants.TRAINJOB_FAILED, "True"⟩,
            ⟨constants.TRAINJOB_COMPLETE, "True"⟩])).status ≠
        constants.TRAINJOB_FAILED := by
  refine ⟨by decide, by decide⟩

/-- Claim C2, amended: if the last true terminal condition in the condition
list is Failed (in particular whenever Failed=true is reported and no
Complete=true condition follows it), the reconciled status is Failed; and
whenever the target set of `wait_for_job_status` excludes Failed and a
fetched snapshot is Failed before any snapshot matches the target, the call
raises the RuntimeError abort rather than waiting or timing out. -/
theorem c2_claim :
    (∀ (name : String) (n : Nat) (pods : List Pod) (conds : List Condition),
      lastTerminal conds = some constants.TRAINJOB_FAILED →
      (get_trainjob_from_crd name n pods (some conds)).status =
        constants.TRAINJOB_FAILED) ∧
    (∀ (target : List String) (pre post : List TrainJob) (j : TrainJob),
      validTarget target = true →
      constants.TRAINJOB_FAILED ∉ target →
      j.status = constants.TRAINJOB_FAILED →
      (∀ k ∈ pre, k.status ∉ target) →
      (wait_for_job_status target (pureSnaps (pre ++ j :: post))).result =
        .error .failedAbort) := by
  constructor
  · intro name n pods conds h
    cases conds with
    | nil => exact absurd h (by simp [lastTerminal])
    | cons c cs =>
      rw [get_trainjob_status, reconcile_some_cons, h]
      rfl
  · intro target pre post j hv hnf hj hpre
    unfold wait_for_job_status
    rw [if_pos hv]
    exact processEvents_abort hnf hj hpre

/-- Claim C2, witness: a job with a single Failed=true condition is Failed,
and a wait targeting only Complete aborts on a stream whose first snapshot
is Created and whose second is Failed. -/
theorem c2_witness :
    (get_trainjob_from_crd "job-abc" 1 []
        (some [⟨constants.TRAINJOB_FAILED, "True"⟩])).status =
      constants.TRAINJOB_FAILED ∧
    (wait_for_job_status [constants.TRAINJOB_COMPLETE]
        (pureSnaps ([⟨"job-abc", 1, [], constants.TRAINJOB_CREATED⟩] ++
          ⟨"job-abc", 1, [], constants.TRAINJOB_FAILED⟩ ::
            [⟨"job-abc", 1, [], constants.TRAINJOB_CREATED⟩]))).result =
      .error .failedAbort :=
  ⟨c2_claim.1 "job-abc" 1 [] [⟨constants.TRAINJOB_FAILED, "True"⟩] (by decide),
    c2_claim.2 [constants.TRAINJOB_COMPLETE]
      [⟨"job-abc", 1, [], constants.TRAINJOB_CREATED⟩]
      [⟨"job-abc", 1, [], constants.TRAINJOB_CREATED⟩]
      ⟨"job-abc", 1, [], constants.TRAINJOB_FAILED⟩
      (by decide) (by decide) (by decide) (by decide)⟩

/-- Claim C3, counterexample: a TrainJob whose resource carries a non-empty
conditions list with no true terminal condition keeps the default Created
status even though all declared node steps are Running — the Pod-based
Running inference only runs when the conditions list is absent or empty. -/
theorem c3_counterexample :
    lastTerminal [⟨"Suspended", "False"⟩] = none ∧
      (get_trainjob_from_crd "job-abc" 1 [⟨"pod-0", "node", 0, "Running"⟩]
          (some [⟨"Suspended", "False"⟩])).num_nodes =
        numRunningNodes
          (get_trainjob_from_crd "job-abc" 1 [⟨"pod-0", "node", 0, "Running"⟩]
            (some [⟨"Suspended", "False"⟩])).steps ∧
      (get_trainjob_from_crd "job-abc" 1 [⟨"pod-0", "node", 0, "Running"⟩]
          (some [⟨"Suspended", "False"⟩])).status ≠
        constants.TRAINJOB_RUNNING := by
  refine ⟨by decide, by decide, by decide⟩

/-- Claim C3, amended: when the resource reports no conditions at all (absent
or empty list), the status is Running exactly when the count of node-named
Running steps equals the declared node count and Created otherwise; when a
non-empty conditions list is present but contains no true terminal
condition, the status stays Created regardless of the steps. -/
theorem c3_claim :
    (∀ (name : String) (n : Nat) (pods : List Pod),
      (get_trainjob_from_crd name n pods none).status =
        if (get_trainjob_from_crd name n pods none).num_nodes =
            numRunningNodes (get_trainjob_from_crd name n pods none).steps then
          constants.TRAINJOB_RUNNING
        else constants.TRAINJOB_CREATED) ∧
    (∀ (name : String) (n : Nat) (pods : List Pod),
      (get_trainjob_from_crd name n pods (some [])).status =
        if (get_trainjob_from_crd name n pods (some [])).num_nodes =
            numRunningNodes
              (get_trainjob_from_crd name n pods (some [])).steps then
          constants.TRAINJOB_RUNNING
        else constants.TRAINJOB_CREATED) ∧
    (∀ (name : String) (n : Nat) (pods : List Pod) (conds : List Condition),
      conds ≠ [] → lastTerminal conds = none →
      (get_trainjob_from_crd name n pods (some conds)).status =
        constants.TRAINJOB_CREATED) := by
  refine ⟨fun name n pods => rfl, fun name n pods => rfl, ?_⟩
  intro name n pods conds hne h
  cases conds with
  | nil => exact absurd rfl hne
  | cons c cs =>
    rw [get_trainjob_status, reconcile_some_cons, h]
    rfl

/-- Claim C3, witness: with two declared nodes and no conditions, a job with
both node Pods Running is Running, one with only one of the two Running is
Created, and a job with a non-terminal condition present is Created. -/
theorem c3_witness :
    (get_trainjob_from_crd "job-abc" 2
        [⟨"pod-0", "node", 0, "Running"⟩, ⟨"pod-1", "node", 1, "Running"⟩]
        none).status =
      (if (get_trainjob_from_crd "job-abc" 2
            [⟨"pod-0", "node", 0, "Running"⟩, ⟨"pod-1", "node", 1, "Running"⟩]
            none).num_nodes =
          numRunningNodes
            (get_trainjob_from_crd "job-abc" 2
              [⟨"pod-0", "node", 0, "Running"⟩, ⟨"pod-1", "node", 1, "Running"⟩]
              none).steps then
        constants.TRAINJOB_RUNNING
      else constants.TRAINJOB_CREATED) ∧
    (get_trainjob_from_crd "job-abc" 2
        [⟨"pod-0", "node", 0, "Running"⟩, ⟨"pod-1", "node", 1, "Pending"⟩]
        none).status =
      (if (get_trainjob_from_crd "job-abc" 2
            [⟨"pod-0", "node", 0, "Running"⟩, ⟨"pod-1", "node", 1, "Pending"⟩]
            none).num_nodes =
          numRunningNodes
            (get_trainjob_from_crd "job-abc" 2
              [⟨"pod-0", "node", 0, "Running"⟩, ⟨"pod-1", "node", 1, "Pending"⟩]
              none).steps then
        constants.TRAINJOB_RUNNING
      else constants.TRAINJOB_CREATED) ∧
    (get_trainjob_from_crd "job-abc" 1 [⟨"pod-0", "node", 0, "Running"⟩]
        (some [⟨"Created", "True"⟩])).status = constants.TRAINJOB_CREATED :=
  ⟨c3_claim.1 "job-abc" 2
      [⟨"pod-0", "node", 0, "Running"⟩, ⟨"pod-1", "node", 1, "Running"⟩],
    c3_claim.2.1 "job-abc" 2
      [⟨"pod-0", "node", 0, "Running"⟩, ⟨"pod-1", "node", 1, "Pending"⟩],
    c3_claim.2.2 "job-abc" 1 [⟨"pod-0", "node", 0, "Running"⟩]
      [⟨"Created", "True"⟩] (by decide) (by decide)⟩

/-- Claim C4: `wait_for_job_status` raises the ValueError exactly when the
target set is not a subset of the four valid statuses, and only then; in the
invalid case the watch is never opened (no cluster call), and the full
four-element set itself always passes validation. -/
theorem c4_claim (target : List String) (events : List Fetch) :
    ((wait_for_job_status target events).result = .error .invalidArgument ↔
      ¬ ∀ s ∈ target, s ∈ job_statuses) ∧
    (wait_for_job_status target events).watch_opened = validTarget target ∧
    (wait_for_job_status job_statuses events).result ≠
      .error .invalidArgument := by
  refine ⟨?_, ?_, ?_⟩
  · by_cases hv : validTarget target = true
    · refine ⟨fun h => ?_, fun h => absurd ((validTarget_iff target).mp hv) h⟩
      unfold wait_for_job_status at h
      rw [if_pos hv] at h
      exact absurd h (processEvents_ne_invalid target events)
    · refine ⟨fun _ h => hv ((validTarget_iff target).mpr h), fun _ => ?_⟩
      unfold wait_for_job_status
      rw [if_neg hv]
  · by_cases hv : validTarget target = true
    · unfold wait_for_job_status
      rw [if_pos hv, hv]
    · unfold wait_for_job_status
      rw [if_neg hv]
      exact (Bool.eq_false_iff.mpr hv).symm
  · have hv : validTarget job_statuses = true := by decide
    unfold wait_for_job_status
    rw [if_pos hv]
    exact processEvents_ne_invalid job_statuses events

/-- Claim C4, witness: the full four-element target set over an empty event
stream does not raise the ValueError, its watch is opened, and a singleton
invalid target is reported exactly by the iff. -/
theorem c4_witness :
    ((wait_for_job_status ["Bogus"] []).result = .error .invalidArgument ↔
      ¬ ∀ s ∈ (["Bogus"] : List String), s ∈ job_statuses) ∧
    (wait_for_job_status ["Bogus"] []).watch_opened = validTarget ["Bogus"] ∧
    (wait_for_job_status job_statuses []).result ≠ .error .invalidArgument :=
  c4_claim ["Bogus"] []

/-- Claim C5: when the target set is valid, every fetched snapshot misses
the target set, and the Failed-abort case never triggers, the call raises
the TimeoutError once the watch stream ends, rather than returning a Job. -/
theorem c5_claim (target : List String) (l : List TrainJob)
    (hv : validTarget target = true)
    (h1 : ∀ j ∈ l, j.status ∉ target)
    (h2 : ∀ j ∈ l, j.status ≠ constants.TRAINJOB_FAILED ∨
      constants.TRAINJOB_FAILED ∈ target) :
    (wait_for_job_status target (pureSnaps l)).result =
      .error .timeoutExpired := by
  unfold wait_for_job_status
  rw [if_pos hv]
  exact processEvents_timeout h1 h2

/-- Claim C5, witness: a wait targeting Complete over a stream of two
Created snapshots times out. -/
theorem c5_witness :
    (wait_for_job_status [constants.TRAINJOB_COMPLETE]
        (pureSnaps [⟨"job-abc", 1, [], constants.TRAINJOB_CREATED⟩,
          ⟨"job-abc", 1, [], constants.TRAINJOB_CREATED⟩])).result =
      .error .timeoutExpired :=
  c5_claim [constants.TRAINJOB_COMPLETE]
    [⟨"job-abc", 1, [], constants.TRAINJOB_CREATED⟩,
      ⟨"job-abc", 1, [], constants.TRAINJOB_CREATED⟩]
    (by decide) (by decide) (by decide)

/-- Claim C6: whenever the watch was opened, the finally block stops it on
every exit path of `wait_for_job_status` — matching snapshot, Failed abort,
timeout, or a propagated exception alike. -/
theorem c6_claim (target : List String) (events : List Fetch)
    (h : (wait_for_job_status target events).watch_opened = true) :
    (wait_for_job_status target events).watch_stopped = true := by
  by_cases hv : validTarget target = true
  · unfold wait_for_job_status
    rw [if_pos hv]
    rfl
  · unfold wait_for_job_status at h
    rw [if_neg hv] at h
    exact absurd h (by simp)

/-- Claim C6, witness: a wait whose stream immediately raises still stops
the watch. -/
theorem c6_witness :
    (wait_for_job_status [constants.TRAINJOB_COMPLETE]
      [.error ()]).watch_stopped = true :=
  c6_claim [constants.TRAINJOB_COMPLETE] [.error ()] (by decide)

/-- Claim C7: every snapshot produced by the reconciler has one of the four
statuses Created, Running, Complete, Failed; and `wait_for_job_status` over
snapshots produced that way only ever returns a job with one of the four
statuses. -/
theorem c7_claim :
    (∀ (name : String) (n : Nat) (pods : List Pod)
        (conds : Option (List Condition)),
      (get_trainjob_from_crd name n pods conds).status ∈ job_statuses) ∧
    (∀ (target : List String) (l : List TrainJob) (j : TrainJob),
      (∀ s ∈ l, s.status ∈ job_statuses) →
      (wait_for_job_status target (pureSnaps l)).result = .ok j →
      j.status ∈ job_statuses) := by
  constructor
  · intro name n pods conds
    rw [get_trainjob_status]
    cases conds with
    | none =>
      show (if n = numRunningNodes (pods.filterMap classifyPod) then
        constants.TRAINJOB_RUNNING else constants.TRAINJOB_CREATED) ∈ _
      split <;> decide
    | some cs =>
      cases cs with
      | nil =>
        show (if n = numRunningNodes (pods.filterMap classifyPod) then
          constants.TRAINJOB_RUNNING else constants.TRAINJOB_CREATED) ∈ _
        split <;> decide
      | cons c cs =>
        rw [reconcile_some_cons]
        cases h : lastTerminal (c :: cs) with
        | none => decide
        | some t =>
          rcases lastTerminal_cases h with ht | ht <;> subst ht <;> decide
  · intro target l j hall hok
    unfold wait_for_job_status at hok
    by_cases hv : validTarget target = true
    · rw [if_pos hv] at hok
      exact hall j (processEvents_ok_mem hok)
    · rw [if_neg hv] at hok
      exact absurd hok (by simp)

/-- Claim C7, witness: a job with a non-terminal condition has one of the
four statuses, and a wait that matches a Created snapshot returns a job
with one of the four statuses. -/
theorem c7_witness :
    (get_trainjob_from_crd "job-abc" 1 [⟨"pod-0", "node", 0, "Running"⟩]
        (some [⟨"Suspended", "False"⟩])).status ∈ job_statuses ∧
    (⟨"job-abc", 1, [], constants.TRAINJOB_CREATED⟩ : TrainJob).status ∈
      job_statuses :=
  ⟨c7_claim.1 "job-abc" 1 [⟨"pod-0", "node", 0, "Running"⟩]
      (some [⟨"Suspended", "False"⟩]),
    c7_claim.2 [constants.TRAINJOB_CREATED]
      [⟨"job-abc", 1, [], constants.TRAINJOB_CREATED⟩]
      ⟨"job-abc", 1, [], constants.TRAINJOB_CREATED⟩
      (by decide) (by rfl)⟩

/-- Claim C8: a Pod whose role label is dataset-initializer or
model-initializer classifies as a Step named exactly the role (no numeric
suffix), and a Pod whose role label is launcher or node with replica index
i classifies as a Step named the role, a dash, and i. -/
theorem c8_claim (p : Pod) :
    (p.rjob_label = constants.DATASET_INITIALIZER ∨
        p.rjob_label = constants.MODEL_INITIALIZER →
      classifyPod p = some ⟨p.rjob_label, mapPodPhase p.phase, p.name⟩) ∧
    (p.rjob_label = constants.LAUNCHER ∨ p.rjob_label = constants.NODE →
      classifyPod p =
        some ⟨p.rjob_label ++ "-" ++ toString p.job_index,
          mapPodPhase p.phase, p.name⟩) := by
  constructor
  · intro h
    unfold classifyPod
    rw [if_pos h]
    rfl
  · intro h
    have h1 : ¬(p.rjob_label = constants.DATASET_INITIALIZER ∨
        p.rjob_label = constants.MODEL_INITIALIZER) := by
      rcases h with h | h <;> rw [h] <;> decide
    unfold classifyPod
    rw [if_neg h1, if_pos h]
    rfl

/-- Claim C8, witness: a dataset-initializer Pod classifies to a step named
dataset-initializer, and a node Pod with index 3 classifies to a step named
node-3. -/
theorem c8_witness :
    classifyPod ⟨"pod-a", "dataset-initializer", 0, "Running"⟩ =
        some ⟨"dataset-initializer", mapPodPhase "Running", "pod-a"⟩ ∧
      classifyPod ⟨"pod-b", "node", 3, "Running"⟩ =
        some ⟨"node" ++ "-" ++ toString 3, mapPodPhase "Running", "pod-b"⟩ :=
  ⟨(c8_claim ⟨"pod-a", "dataset-initializer", 0, "Running"⟩).1 (Or.inl rfl),
    (c8_claim ⟨"pod-b", "node", 3, "Running"⟩).2 (Or.inr rfl)⟩

/-- Claim C9: in follow mode, when the single opened source eventually
yields the end-of-stream sentinel, `get_job_logs` terminates with the
transcript holding exactly the lines produced before the sentinel, in
order; and the polling loop only ever returns once every source is marked
finished. -/
theorem c9_claim (steps : List Step) (node_rank : Nat)
    (sched : List PullResult) (readResult : Except Unit String) (pn : String)
    (hsel : selectPodName steps constants.NODE node_rank = some pn)
    (hs : PullResult.sentinel ∈ sched) :
    (get_job_logs steps constants.NODE node_rank true sched (sched.length + 1)
        readResult).result =
      some (.ok [(stepKey constants.NODE node_rank,
        transcriptOf (linesBefore sched))]) ∧
    (get_job_logs steps constants.NODE node_rank true sched (sched.length + 1)
        readResult).read_attempted = true ∧
    (∀ (fuel : Nat) (pool : List SrcState) (acc out : List String)
        (p : List SrcState),
      followLoop fuel pool acc = some (p, out) → allFinished p = true) := by
  obtain ⟨r, hr⟩ := followLoop_single sched.length sched [] hs (Nat.le_refl _)
  refine ⟨?_, ?_,
    fun fuel pool acc out p h => followLoop_allFinished fuel pool acc out p h⟩
  · unfold get_job_logs
    rw [hsel, hr]
    rfl
  · unfold get_job_logs
    rw [hsel, hr]
    rfl

/-- Claim C9, witness: one source producing hello, a transient empty pull,
world, then the sentinel yields the transcript hello-newline-world-newline
and finishes. -/
theorem c9_witness :
    (get_job_logs [⟨"node-0", "Running", "pod-a"⟩] constants.NODE 0 true
        [PullResult.line "hello", PullResult.empty, PullResult.line "world",
          PullResult.sentinel]
        ([PullResult.line "hello", PullResult.empty, PullResult.line "world",
          PullResult.sentinel].length + 1)
        (.ok "")).result =
      some (.ok [(stepKey constants.NODE 0,
        transcriptOf (linesBefore
          [PullResult.line "hello", PullResult.empty, PullResult.line "world",
            PullResult.sentinel]))]) :=
  (c9_claim [⟨"node-0", "Running", "pod-a"⟩] 0
    [PullResult.line "hello", PullResult.empty, PullResult.line "world",
      PullResult.sentinel]
    (.ok "") "pod-a" (by decide) (by decide)).1

theorem selectPodName_eq_none {steps : List Step} {step : String}
    {node_rank : Nat}
    (h : ∀ c ∈ steps, ¬(c.status ≠ constants.POD_PENDING ∧
      (c.name = step ∨ c.name = stepKey step node_rank))) :
    selectPodName steps step node_rank = none := by
  have key : ∀ (l : List Step) (acc : Option String),
      (∀ c ∈ l, ¬(c.status ≠ constants.POD_PENDING ∧
        (c.name = step ∨ c.name = stepKey step node_rank))) →
      l.foldl (selectFold step node_rank) acc = acc := by
    intro l
    induction l with
    | nil => intro acc _; rfl
    | cons c cs ih =>
      intro acc hc
      show cs.foldl (selectFold step node_rank)
        (selectFold step node_rank acc c) = acc
      rw [show selectFold step node_rank acc c = acc from by
        unfold selectFold
        rw [if_neg (hc c (List.mem_cons_self c cs))]]
      exact ih acc fun k hk => hc k (List.mem_cons_of_mem c hk)
  exact key steps none h

/-- Claim C10: when no step of the job both matches the requested step
identifier and is past Pending, `get_job_logs` returns an empty mapping,
raises nothing, and never opens a log read. -/
theorem c10_claim (steps : List Step) (step : String) (node_rank : Nat)
    (follow : Bool) (sched : List PullResult) (fuel : Nat)
    (readResult : Except Unit String)
    (h : ∀ c ∈ steps, ¬(c.status ≠ constants.POD_PENDING ∧
      (c.name = step ∨ c.name = stepKey step node_rank))) :
    (get_job_logs steps step node_rank follow sched fuel readResult).result =
        some (.ok []) ∧
      (get_job_logs steps step node_rank follow sched fuel
        readResult).read_attempted = false := by
  unfold get_job_logs
  rw [selectPodName_eq_none h]
  exact ⟨rfl, rfl⟩

/-- Claim C10, witness: a job whose only matching node step is still Pending
(and whose other step does not match) yields an empty mapping with no read. -/
theorem c10_witness :
    (get_job_logs
        [⟨"node-0", "Pending", "pod-a"⟩,
          ⟨"dataset-initializer", "Running", "pod-b"⟩]
        "node" 0 true [] 0 (.ok "text")).result = some (.ok []) ∧
      (get_job_logs
        [⟨"node-0", "Pending", "pod-a"⟩,
          ⟨"dataset-initializer", "Running", "pod-b"⟩]
        "node" 0 true [] 0 (.ok "text")).read_attempted = false :=
  c10_claim
    [⟨"node-0", "Pending", "pod-a"⟩,
      ⟨"dataset-initializer", "Running", "pod-b"⟩]
    "node" 0 true [] 0 (.ok "text") (by decide)

end KubeflowTrainer
